import Mathlib

/-!
# Verification of the beak paint program (src/beak.c)

Shallow embedding of the undo/redo history engine, the viewport clamp, the
startup/option handling and the per-frame main loop of `src/beak.c`, together
with proofs settling the frozen claims C1..C10.

Modelling conventions:
* `Image *images` (a `malloc`ed array of `size` slots) is embedded as a total
  function `Nat → Option α`: `none` models an unoccupied / freed / uninitialized
  slot, `some a` a loaded snapshot with content `a`.  The canvas content type is
  kept generic (`α`); the concrete instantiation used by the frame loop is
  `Canvas`, a list of the raylib draw commands issued to the framebuffer since
  it was last cleared (the raster primitives themselves are external
  collaborators, spec section 6).
* `size_t` arithmetic is embedded as `Nat`.  The only places the C program and
  `Nat` could disagree are (a) the `used_size -= dist - 1` subtraction in the
  pruning branch, which in C would wrap mod 2^64 if `dist - 1 > used_size` —
  the proved invariant `log_top_dist ≤ used_size` shows that situation is
  unreachable, and (b) `(selected + size + offset) % size` in `undo_log_copy`,
  where the C computation coincides with the `Int`-then-`toNat` embedding for
  the offsets `1` and `-1` actually used, because `selected + size ≥ 1`.
* Mouse coordinates are floats in raylib; they are embedded as `Int`
  (pixel-integral pointer positions).  No settled claim depends on fractional
  pointer arithmetic.  `ColorFromHSV` float math is abstracted: a brush color
  is represented by its palette index (`PaintColor.palette`), the background by
  its configured hex code (`PaintColor.rgba`); the claims only distinguish
  colors, never inspect HSV components.
-/

set_option maxHeartbeats 1000000

namespace Beak

/-! ## Snapshot store / undo log (beak.c lines 36-75) -/

/-- `UndoLog` (beak.c lines 36-42): `images` is the slot array, `size` the
configured capacity, `used_size` the number of occupied slots, `top` the index
receiving the next push, `selected` the index currently materialized. -/
structure UndoLog (α : Type) where
  images : Nat → Option α
  size : Nat
  used_size : Nat
  top : Nat
  selected : Nat

/-- Writing one slot of the image array. -/
def set_slot {α : Type} (images : Nat → Option α) (i : Nat) (v : Option α) :
    Nat → Option α :=
  fun j => if j = i then v else images j

/-- `undo_log_push` (beak.c lines 45-60): store the framebuffer contents in
slot `top` (the `UnloadImage` of an occupied slot is subsumed by the
overwrite; the freed content is exposed by `undo_log_push_released`), set
`selected` to the written slot, advance `top` mod `size`, and increment
`used_size` unless already at capacity. -/
def undo_log_push {α : Type} (log : UndoLog α) (fb : α) : UndoLog α :=
  { log with
    images := set_slot log.images log.top (some fb)
    selected := log.top
    top := (log.top + 1) % log.size
    used_size :=
      if log.used_size < log.size then log.used_size + 1 else log.used_size }

/-- The snapshot content `UnloadImage`d (freed) by `undo_log_push` before the
slot is reused (beak.c lines 49-50): the image in slot `top`, but only when the
log is full. -/
def undo_log_push_released {α : Type} (log : UndoLog α) : Option α :=
  if log.used_size = log.size then log.images log.top else none

/-- `undo_log_copy` (beak.c lines 63-75): move `selected` by `offset`
(circularly) and draw that log entry over the framebuffer.  The vertical flip
at line 71 cancels the flip performed by `LoadImageFromTexture`, so the
CPU->GPU round trip is content-preserving and the new framebuffer content is
exactly the stored snapshot.  An unoccupied slot holds no image; the `.getD fb`
default is never exercised under the main loop's guards (see the claims about
reachable states). -/
def undo_log_copy {α : Type} (log : UndoLog α) (fb : α) (offset : Int) :
    UndoLog α × α :=
  let sel : Nat :=
    (((log.selected : Int) + (log.size : Int) + offset).toNat) % log.size
  ({ log with selected := sel }, (log.images sel).getD fb)

/-- `log_top_dist` (beak.c line 252): circular distance from `selected` up to
`top`. -/
def log_top_dist {α : Type} (log : UndoLog α) : Nat :=
  (log.top + log.size - log.selected) % log.size

/-- The undo request handling of the main loop (beak.c lines 279-281): undo is
performed only when `log_top_dist < used_size`, otherwise the frame leaves the
log and framebuffer untouched. -/
def main_undo {α : Type} (log : UndoLog α) (fb : α) : UndoLog α × α :=
  if log_top_dist log < log.used_size then undo_log_copy log fb (-1)
  else (log, fb)

/-- The redo request handling of the main loop (beak.c lines 259, 273-275):
redo is performed only when `log_top_dist > 1`. -/
def main_redo {α : Type} (log : UndoLog α) (fb : α) : UndoLog α × α :=
  if 1 < log_top_dist log then undo_log_copy log fb 1
  else (log, fb)

/-- `k` successive undo-request frames (each one beak.c lines 279-281). -/
def main_undo_iter {α : Type} : Nat → UndoLog α × α → UndoLog α × α
  | 0, s => s
  | k + 1, s => main_undo_iter k (main_undo s.1 s.2)

/-- The `UnloadImage` loop of the pruning branch (beak.c lines 262-264):
free every slot from `start` walking circularly until `stop` is reached.
The fuel argument bounds the walk; the callers pass `size`, which the loop
never exhausts on the guarded states (`log_top_dist - 1 < size` steps). -/
def unload_range {α : Type} (size stop : Nat) :
    (Nat → Option α) → Nat → Nat → (Nat → Option α)
  | images, _, 0 => images
  | images, start, fuel + 1 =>
    if start = stop then images
    else unload_range size stop (set_slot images start none) ((start + 1) % size) fuel

/-- The pruning body of the main loop (beak.c lines 262-269), with `d` the
value `log_top_dist` computed at line 252: free every slot strictly between
`selected` and `top`, set `top` to one past `selected`, and remove the
`d - 1` pruned entries from `used_size`. -/
def main_prune {α : Type} (log : UndoLog α) (d : Nat) : UndoLog α :=
  { log with
    images := unload_range log.size log.top log.images ((log.selected + 1) % log.size) log.size
    top := (log.selected + 1) % log.size
    used_size := log.used_size - (d - 1) }

/-- The left-button-press handling of the main loop (beak.c lines 259-270):
pruning happens exactly when `log_top_dist > 1`. -/
def main_press_prune {α : Type} (log : UndoLog α) : UndoLog α :=
  if 1 < log_top_dist log then main_prune log (log_top_dist log) else log

/-- `clear_framebuffer` (beak.c lines 83-88): clear the framebuffer to the
background color — so its content becomes the blank canvas `blank` — and push
that state onto the undo log. -/
def clear_framebuffer {α : Type} (log : UndoLog α) (blank : α) : UndoLog α × α :=
  (undo_log_push log blank, blank)

/-- The freshly `malloc`ed undo log of `main` (beak.c lines 200-203): `size`
slots, none of them loaded yet, all counters zero. -/
def initLog (α : Type) (c : Nat) : UndoLog α :=
  { images := fun _ => none, size := c, used_size := 0, top := 0, selected := 0 }

/-- Well-formedness of an undo log state: the counters are in range and the
circular distance from `selected` to `top` never exceeds the number of
occupied slots.  This is the invariant of claim C6; every state the program
reaches satisfies it. -/
def WFlog {α : Type} (log : UndoLog α) : Prop :=
  log.used_size ≤ log.size ∧ 1 ≤ log.used_size ∧ log.top < log.size ∧
    log.selected < log.size ∧ log_top_dist log ≤ log.used_size

instance {α : Type} (log : UndoLog α) : Decidable (WFlog log) := by
  unfold WFlog
  exact inferInstance

/-- The states of the undo log reachable from the program's initial state
(the startup `clear_framebuffer` at beak.c line 209) by any sequence of the
five history operations of the main loop: stroke-commit push (left-button
release, line 286), guarded undo (line 280), guarded redo (line 274), clear
(line 237) and divergence pruning (left-button press, lines 261-270).
`blank` is the canvas cleared to the background color, `c` the configured
capacity. -/
inductive ReachableLog (α : Type) (c : Nat) (blank : α) : UndoLog α → Prop where
  | init : ReachableLog α c blank (clear_framebuffer (initLog α c) blank).1
  | push (l : UndoLog α) (fb : α) : ReachableLog α c blank l →
      ReachableLog α c blank (undo_log_push l fb)
  | undo (l : UndoLog α) (fb : α) : ReachableLog α c blank l →
      ReachableLog α c blank (main_undo l fb).1
  | redo (l : UndoLog α) (fb : α) : ReachableLog α c blank l →
      ReachableLog α c blank (main_redo l fb).1
  | clear (l : UndoLog α) : ReachableLog α c blank l →
      ReachableLog α c blank (clear_framebuffer l blank).1
  | prune (l : UndoLog α) : ReachableLog α c blank l →
      ReachableLog α c blank (main_press_prune l)

/-- Folding a list of framebuffer states into the log by successive pushes
(used to state the ring-capacity / eviction claim C3). -/
def push_seq {α : Type} (log : UndoLog α) : List α → UndoLog α
  | [] => log
  | x :: xs => push_seq (undo_log_push log x) xs

/-! ## Checked variants of push and copy (claim C8)

The C functions perform no runtime validation beyond the `assert` at beak.c
line 48.  The checked variants below make the undefined behaviours of the C
code explicit, in the order the C code would hit them: first the `assert
(used_size <= size)`, then — when the log is full — the `UnloadImage
(images[top])` which reads out of bounds if `top` is not a valid index of the
`size`-element array, then the `% size` index arithmetic which divides by
zero when `size = 0`. -/

/-- The distinct ways `undo_log_push` / `undo_log_copy` can go wrong in C. -/
inductive PushFailure where
  | assertViolation
  | oobUnload
  | modByZero
  deriving DecidableEq

/-- `undo_log_push` with its implicit preconditions made explicit (beak.c
lines 45-60).  A `size = 0` log fails inside the function — the `assert` at
line 48 passes (`0 ≤ 0`), then the `UnloadImage(log->images[log->top])` at
line 50 reads the zero-length array out of bounds. -/
def undo_log_push_checked {α : Type} (log : UndoLog α) (fb : α) :
    Except PushFailure (UndoLog α) :=
  if ¬ log.used_size ≤ log.size then .error .assertViolation
  else if log.used_size = log.size ∧ ¬ log.top < log.size then .error .oobUnload
  else if log.size = 0 then .error .modByZero
  else .ok (undo_log_push log fb)

/-- `undo_log_copy` (materialize) with its implicit precondition made
explicit: the `% log->size` at beak.c line 65 divides by zero when
`size = 0`; any positive size yields an in-bounds slot index. -/
def undo_log_copy_checked {α : Type} (log : UndoLog α) (fb : α) (offset : Int) :
    Except PushFailure (UndoLog α × α) :=
  if log.size = 0 then .error .modByZero
  else .ok (undo_log_copy log fb offset)

/-- The first history operation of startup (beak.c lines 200-209): the
freshly allocated log is immediately `clear_framebuffer`ed, i.e.
`undo_log_push`ed.  The program performs no validation of
`--undo-log-size` before this push runs. -/
def startup_push_checked (α : Type) (c : Nat) (blank : α) :
    Except PushFailure (UndoLog α) :=
  undo_log_push_checked (initLog α c) blank

/-- The failure (if any) of the startup push, as a decidable observation. -/
def startup_push_failure (α : Type) (c : Nat) (blank : α) : Option PushFailure :=
  match startup_push_checked α c blank with
  | .error e => some e
  | .ok _ => none

/-! ## Viewport clamp (beak.c lines 16-23 and 296-309) -/

/-- The `MAX` macro (beak.c lines 16-17) on `int`. -/
def MAXi (a b : Int) : Int := if a > b then a else b

/-- The `MIN` macro (beak.c lines 19-20) on `int`. -/
def MINi (a b : Int) : Int := if a < b then a else b

/-- The `CLAMP` macro (beak.c lines 22-23): `MIN(upper, MAX(lower, x))`. -/
def CLAMPi (lower x upper : Int) : Int := MINi upper (MAXi lower x)

/-- One axis of the camera-target clamp applied on pan and on resize
(beak.c lines 301-302 and 307-308):
`CLAMP(w/2, target, MAX(0, (int)canvas_dim - w/2))`.  `winDim` is the polled
window dimension (`GetScreenWidth`/`Height`, nonnegative), so the C `w/2`
integer division is the `Nat` division `winDim / 2`. -/
def clamp_target_axis (winDim canvasDim : Nat) (t : Int) : Int :=
  CLAMPi ((winDim / 2 : Nat) : Int) t
    (MAXi 0 ((canvasDim : Int) - ((winDim / 2 : Nat) : Int)))

/-! ## Canvas, frame input and the per-frame main loop body
(beak.c lines 220-344) -/

/-- A color as far as the claims can observe it: either a palette entry
(`get_brush_color i`, the HSV float math abstracted to the index) or a raw
RGBA code (`GetColor(background_hexcolor)`). -/
inductive PaintColor where
  | palette (i : Nat)
  | rgba (hex : Nat)
  deriving DecidableEq

/-- `get_brush_color` (beak.c lines 78-80), with `ColorFromHSV` kept
abstract: palette entry `i`. -/
def get_brush_color (i : Nat) : PaintColor := .palette i

/-- One draw command issued against the framebuffer render texture. -/
inductive PaintCmd where
  | clearBg (c : PaintColor)
  | circle (x y r : Int) (c : PaintColor)
  | lineEx (x1 y1 x2 y2 w : Int) (c : PaintColor)
  deriving DecidableEq

/-- The live framebuffer content: the draw commands applied since the last
clear.  `ClearBackground` resets the content to the single clear command. -/
abbrev Canvas := List PaintCmd

/-- The color a draw command paints with. -/
def paint_cmd_color : PaintCmd → PaintColor
  | .clearBg c => c
  | .circle _ _ _ c => c
  | .lineEx _ _ _ _ _ c => c

/-- The blank canvas produced by `ClearBackground(color)`. -/
def blank_canvas (background : PaintColor) : Canvas := [PaintCmd.clearBg background]

/-- The startup configuration consumed by the frame loop (beak.c lines
108-113), immutable after option parsing. -/
structure Config where
  canvas_width : Nat
  canvas_height : Nat
  background : PaintColor

/-- The mutable state owned by the main loop across frames (beak.c lines
200-219): the undo log, the framebuffer, the camera target, the brush, and
the remembered mouse position (`mouse_pos` of the previous frame becomes
`prev_mouse_pos`). -/
structure AppState where
  log : UndoLog Canvas
  framebuffer : Canvas
  target_x : Int
  target_y : Int
  brush_color : PaintColor
  brush_radius : Int
  mouse_x : Int
  mouse_y : Int

/-- The inputs polled during one frame (beak.c lines 221-305): window size,
key and button events, scroll and pointer position.  `color_key` is
`GetKeyPressed` when it falls in `KEY_ONE..KEY_FIVE` (as the offset from
`KEY_ONE`); `key_undo` covers `KEY_Q` and `MOUSE_BUTTON_SIDE`, `key_redo`
covers `KEY_W` and `MOUSE_BUTTON_EXTRA`. -/
structure FrameInput where
  w : Nat
  h : Nat
  color_key : Option Nat
  scroll : Int
  key_c : Bool
  key_redo : Bool
  key_undo : Bool
  left_pressed : Bool
  left_released : Bool
  left_down : Bool
  right_down : Bool
  middle_down : Bool
  resized : Bool
  mouse_x : Int
  mouse_y : Int

/-- One iteration of the main loop body (beak.c lines 220-344), in source
order: brush-color keys (225-227), brush radius scroll (229-234, the float
step `5.0f * scroll` embedded over `Int`), `KEY_C` clear (236-238; `KEY_S`
at 240-244 only exports and touches no state), the `log_top_dist`
computation (252) — note it happens after the clear —, the pruning /
redo block guarded by that distance (259-276), the guarded undo (279-281)
which reuses the distance computed at line 252 but reads the current
`used_size`, the stroke-commit push on left release (285-287), panning and
the clamps (293-309), and the capsule drawing (315-334) which uses the
updated target, the previous and the current mouse positions, and the brush
color for the left button or the background color for the right button. -/
def frame_step (cfg : Config) (s : AppState) (inp : FrameInput) : AppState :=
  let brush_color :=
    match inp.color_key with
    | some n => get_brush_color n
    | none => s.brush_color
  let brush_radius :=
    if inp.scroll ≠ 0 then
      let r := s.brush_radius + 5 * inp.scroll
      if r ≤ 0 then 1 else r
    else s.brush_radius
  let lf : UndoLog Canvas × Canvas :=
    if inp.key_c = true then clear_framebuffer s.log (blank_canvas cfg.background)
    else (s.log, s.framebuffer)
  let log := lf.1
  let fb := lf.2
  let d := log_top_dist log
  let log := if 1 < d ∧ inp.left_pressed = true then main_prune log d else log
  let lf : UndoLog Canvas × Canvas :=
    if 1 < d ∧ inp.key_redo = true then undo_log_copy log fb 1 else (log, fb)
  let log := lf.1
  let fb := lf.2
  let lf : UndoLog Canvas × Canvas :=
    if d < log.used_size ∧ inp.key_undo = true then undo_log_copy log fb (-1)
    else (log, fb)
  let log := lf.1
  let fb := lf.2
  let log := if inp.left_released = true then undo_log_push log fb else log
  let prev_x := s.mouse_x
  let prev_y := s.mouse_y
  let mouse_x := inp.mouse_x
  let mouse_y := inp.mouse_y
  let txy : Int × Int :=
    if inp.middle_down = true then
      (clamp_target_axis inp.w cfg.canvas_width (s.target_x - (mouse_x - prev_x)),
       clamp_target_axis inp.h cfg.canvas_height (s.target_y - (mouse_y - prev_y)))
    else (s.target_x, s.target_y)
  let txy : Int × Int :=
    if inp.resized = true then
      (clamp_target_axis inp.w cfg.canvas_width txy.1,
       clamp_target_axis inp.h cfg.canvas_height txy.2)
    else txy
  let fb :=
    if inp.left_down = true ∨ inp.right_down = true then
      let color := if inp.left_down = true then brush_color else cfg.background
      let off_x := txy.1 - ((inp.w / 2 : Nat) : Int)
      let off_y := txy.2 - ((inp.h / 2 : Nat) : Int)
      let sx := off_x + prev_x
      let sy := (cfg.canvas_height : Int) - (off_y + prev_y)
      let ex := off_x + mouse_x
      let ey := (cfg.canvas_height : Int) - (off_y + mouse_y)
      fb ++ [PaintCmd.circle sx sy brush_radius color,
             PaintCmd.lineEx sx sy ex ey (2 * brush_radius) color,
             PaintCmd.circle ex ey brush_radius color]
    else fb
  { log := log, framebuffer := fb, target_x := txy.1, target_y := txy.2,
    brush_color := brush_color, brush_radius := brush_radius,
    mouse_x := mouse_x, mouse_y := mouse_y }

/-! ## Numeric option parsing (beak.c lines 170-193, claim C9) -/

/-- `ULONG_MAX` on the 64-bit targets the makefile builds for. -/
def ULONG_MAX : Nat := 2 ^ 64 - 1

/-- The C `isspace` character class used by `strtoul`. -/
def is_space_c (c : Char) : Bool :=
  c == ' ' || c == '\t' || c == '\n' || c == '\r' || c == '\x0b' || c == '\x0c'

/-- Leading-whitespace skipping performed by `strtoul`. -/
def skip_spaces : List Char → List Char
  | [] => []
  | c :: rest => if is_space_c c then skip_spaces rest else c :: rest

/-- The optional sign accepted by `strtoul`; returns the negation flag and
the remaining characters. -/
def take_sign : List Char → Bool × List Char
  | '-' :: rest => (true, rest)
  | '+' :: rest => (false, rest)
  | s => (false, s)

/-- The exact value of the longest leading run of decimal digits
(`strtoul` stops at the first non-digit; zero digits yield the
accumulator). -/
def digits_value : List Char → Nat → Nat
  | c :: rest, acc =>
    if c.isDigit then digits_value rest (10 * acc + (c.toNat - 48)) else acc
  | [], acc => acc

/-- `strtoul(value, NULL, 10)` as called at beak.c line 178: skip
whitespace, take an optional sign, convert the digit run.  A value whose
magnitude exceeds `ULONG_MAX` is clamped to `ULONG_MAX` (the `ERANGE`
case); a negated in-range value wraps in unsigned arithmetic; a string with
no digits converts to `0`. -/
def strtoul10 (s : List Char) : Nat :=
  let s2 := (take_sign (skip_spaces s)).2
  let neg := (take_sign (skip_spaces s)).1
  let v := digits_value s2 0
  if ULONG_MAX < v then ULONG_MAX
  else if neg then (2 ^ 64 - v) % 2 ^ 64
  else v

/-- The per-option handling of a `CMDLINE_OPTION_ULONG` value (beak.c lines
177-183): parse with `strtoul`, and reject — diagnostic plus non-zero
process exit, modeled as `Except.error` — exactly when the parsed value is
`ULONG_MAX`. -/
def parse_ulong_option (value : List Char) : Except Unit Nat :=
  let v := strtoul10 value
  if v = ULONG_MAX then Except.error () else Except.ok v

/-- Whether the digit run of the (sign-stripped) value is absent, i.e.
`strtoul` performs no conversion at all. -/
def leading_non_digit : List Char → Bool
  | [] => true
  | c :: _ => !c.isDigit

/-- Modelled from the spec: claim C9's notion of a value that "parses as a
valid number" — after `strtoul`'s whitespace and sign handling the entire
remainder is a nonempty run of decimal digits.  This is the spec-side
predicate the code-side acceptance is compared against. -/
def spec_valid_number (s : List Char) : Bool :=
  let s2 := (take_sign (skip_spaces s)).2
  !s2.isEmpty && s2.all Char.isDigit

/-! ## Concrete states used to instantiate the universally quantified
claim theorems -/

/-- A populated log browsing three entries back: capacity 4, snapshots
10, 20, 30 in slots 0-2, `top = 3`, `selected = 0`, so `log_top_dist = 3`. -/
def exLogBrowsing : UndoLog Nat :=
  { images := fun i => if i < 3 then some (10 * (i + 1)) else none,
    size := 4, used_size := 3, top := 3, selected := 0 }

/-- A populated log at the tip of history: capacity 4, three snapshots,
`top = 3`, `selected = 2`, so `log_top_dist = 1`. -/
def exLogAtTip : UndoLog Nat :=
  { images := fun i => if i < 3 then some (10 * (i + 1)) else none,
    size := 4, used_size := 3, top := 3, selected := 2 }

/-- A small log for the round-trip claim: capacity 3, one snapshot. -/
def exLogSmall : UndoLog Nat :=
  { images := fun i => if i = 0 then some 7 else none,
    size := 3, used_size := 1, top := 1, selected := 0 }

/-- A log at the oldest reachable state: `log_top_dist = used_size = 2`. -/
def exLogOldest : UndoLog Nat :=
  { images := fun i => if i < 2 then some (i + 1) else none,
    size := 4, used_size := 2, top := 2, selected := 0 }

/-- A log with `log_top_dist = 1` (no newer entry). -/
def exLogNoRedo : UndoLog Nat :=
  { images := fun i => if i < 2 then some (i + 1) else none,
    size := 4, used_size := 2, top := 2, selected := 1 }

/-- A well-formed small log for the checked-push claim. -/
def exLogChecked : UndoLog Nat :=
  { images := fun i => if i = 0 then some 5 else none,
    size := 2, used_size := 1, top := 1, selected := 0 }

/-- The default configuration of `main` (beak.c lines 108-113). -/
def exConfig : Config :=
  { canvas_width := 2560, canvas_height := 1440,
    background := .rgba 0x111600FF }

/-- An application state shortly after startup: one blank snapshot in the
log, default camera target. -/
def exAppState : AppState :=
  { log := { images := fun i => if i = 0 then some (blank_canvas exConfig.background) else none,
             size := 16, used_size := 1, top := 1, selected := 0 },
    framebuffer := blank_canvas exConfig.background,
    target_x := 400, target_y := 300,
    brush_color := get_brush_color 0, brush_radius := 10,
    mouse_x := 0, mouse_y := 0 }

/-- A frame whose only input is the right (erase) button held down while the
pointer moves: no keys, no left-button activity. -/
def exEraseInput : FrameInput :=
  { w := 800, h := 600, color_key := none, scroll := 0,
    key_c := false, key_redo := false, key_undo := false,
    left_pressed := false, left_released := false, left_down := false,
    right_down := true, middle_down := false, resized := false,
    mouse_x := 5, mouse_y := 5 }

/-- The concrete run refuting claim C1: capacity 4, startup clear with blank
canvas `0`, two stroke commits pushing `1` and `2`, then two undo requests —
the user is now viewing the blank snapshot with `log_top_dist = 3 > 1`. -/
def exC1AfterUndos : UndoLog Nat :=
  (main_undo
      (main_undo (undo_log_push (undo_log_push
          (clear_framebuffer (initLog Nat 4) 0).1 1) 2) 2).1
      (main_undo (undo_log_push (undo_log_push
          (clear_framebuffer (initLog Nat 4) 0).1 1) 2) 2).2).1

/-- The log of the C1 run after the user presses `KEY_C` (Clear) while
browsing history. -/
def exC1AfterClear : UndoLog Nat := (clear_framebuffer exC1AfterUndos 0).1

/-! ## Arithmetic helpers for the circular index reasoning -/

theorem mod_cases (x S : Nat) (h : x < 2 * S) :
    x % S = if x < S then x else x - S := by
  split_ifs with h1
  · exact Nat.mod_eq_of_lt h1
  · rw [Nat.mod_eq_sub_mod (by omega)]
    exact Nat.mod_eq_of_lt (by omega)

/-- Closed form of the circular distance for in-range cursors. -/
theorem dist_closed (t s S : Nat) (ht : t < S) (hs : s < S) :
    (t + S - s) % S = if s ≤ t then t - s else t + S - s := by
  rw [mod_cases (t + S - s) S (by omega)]
  split_ifs <;> omega

theorem dist_lt_size {α : Type} (l : UndoLog α) (h0 : 0 < l.size) :
    log_top_dist l < l.size :=
  Nat.mod_lt _ h0

/-! ## Field-level description of push and copy -/

theorem push_selected {α : Type} (l : UndoLog α) (fb : α) :
    (undo_log_push l fb).selected = l.top := rfl

theorem push_top {α : Type} (l : UndoLog α) (fb : α) :
    (undo_log_push l fb).top = (l.top + 1) % l.size := rfl

theorem push_size {α : Type} (l : UndoLog α) (fb : α) :
    (undo_log_push l fb).size = l.size := rfl

theorem push_used {α : Type} (l : UndoLog α) (fb : α) :
    (undo_log_push l fb).used_size =
      if l.used_size < l.size then l.used_size + 1 else l.used_size := rfl

theorem push_images {α : Type} (l : UndoLog α) (fb : α) :
    (undo_log_push l fb).images = set_slot l.images l.top (some fb) := rfl

theorem copy_top {α : Type} (l : UndoLog α) (fb : α) (off : Int) :
    (undo_log_copy l fb off).1.top = l.top := rfl

theorem copy_size {α : Type} (l : UndoLog α) (fb : α) (off : Int) :
    (undo_log_copy l fb off).1.size = l.size := rfl

theorem copy_used {α : Type} (l : UndoLog α) (fb : α) (off : Int) :
    (undo_log_copy l fb off).1.used_size = l.used_size := rfl

theorem copy_images {α : Type} (l : UndoLog α) (fb : α) (off : Int) :
    (undo_log_copy l fb off).1.images = l.images := rfl

theorem copy_fb {α : Type} (l : UndoLog α) (fb : α) (off : Int) :
    (undo_log_copy l fb off).2 =
      (l.images ((undo_log_copy l fb off).1.selected)).getD fb := rfl

theorem copy_selected_neg {α : Type} (l : UndoLog α) (fb : α) :
    (undo_log_copy l fb (-1)).1.selected = (l.selected + l.size - 1) % l.size := by
  show (((l.selected : Int) + (l.size : Int) + (-1)).toNat) % l.size = _
  have h : ((l.selected : Int) + (l.size : Int) + (-1)).toNat =
      l.selected + l.size - 1 := by omega
  rw [h]

theorem copy_selected_pos {α : Type} (l : UndoLog α) (fb : α) :
    (undo_log_copy l fb 1).1.selected = (l.selected + 1) % l.size := by
  show (((l.selected : Int) + (l.size : Int) + 1).toNat) % l.size = _
  have h : ((l.selected : Int) + (l.size : Int) + 1).toNat =
      l.selected + 1 + l.size := by omega
  rw [h, Nat.add_mod_right]

/-! ## Distance evolution under the operations -/

theorem dist_push {α : Type} (l : UndoLog α) (fb : α) (h2 : 2 ≤ l.size)
    (ht : l.top < l.size) :
    log_top_dist (undo_log_push l fb) = 1 := by
  show ((l.top + 1) % l.size + l.size - l.top) % l.size = 1
  rw [mod_cases (l.top + 1) l.size (by omega)]
  split_ifs with h
  · have e : l.top + 1 + l.size - l.top = l.size + 1 := by omega
    rw [e, Nat.add_mod_left]
    exact Nat.mod_eq_of_lt (by omega)
  · have e : l.top + 1 - l.size + l.size - l.top = 1 := by omega
    rw [e]
    exact Nat.mod_eq_of_lt (by omega)

theorem dist_copy_neg_nowrap {α : Type} (l : UndoLog α) (fb : α) (h0 : 0 < l.size)
    (ht : l.top < l.size) (hs : l.selected < l.size)
    (h : log_top_dist l + 1 < l.size) :
    log_top_dist (undo_log_copy l fb (-1)).1 = log_top_dist l + 1 := by
  have hsel := copy_selected_neg l fb
  have hs' : (l.selected + l.size - 1) % l.size < l.size := Nat.mod_lt _ h0
  unfold log_top_dist at h ⊢
  show (l.top + l.size - (undo_log_copy l fb (-1)).1.selected) % l.size = _
  rw [hsel, dist_closed l.top ((l.selected + l.size - 1) % l.size) l.size ht hs',
    mod_cases (l.selected + l.size - 1) l.size (by omega)]
  rw [dist_closed l.top l.selected l.size ht hs] at h ⊢
  split_ifs at * <;> omega

theorem dist_copy_neg_wrap {α : Type} (l : UndoLog α) (fb : α) (h0 : 0 < l.size)
    (ht : l.top < l.size) (hs : l.selected < l.size)
    (h : log_top_dist l + 1 = l.size) :
    log_top_dist (undo_log_copy l fb (-1)).1 = 0 := by
  have hsel := copy_selected_neg l fb
  have hs' : (l.selected + l.size - 1) % l.size < l.size := Nat.mod_lt _ h0
  unfold log_top_dist at h ⊢
  show (l.top + l.size - (undo_log_copy l fb (-1)).1.selected) % l.size = 0
  rw [hsel, dist_closed l.top ((l.selected + l.size - 1) % l.size) l.size ht hs',
    mod_cases (l.selected + l.size - 1) l.size (by omega)]
  rw [dist_closed l.top l.selected l.size ht hs] at h
  split_ifs at * <;> omega

theorem dist_copy_pos {α : Type} (l : UndoLog α) (fb : α) (h0 : 0 < l.size)
    (ht : l.top < l.size) (hs : l.selected < l.size)
    (hd : 1 < log_top_dist l) :
    log_top_dist (undo_log_copy l fb 1).1 = log_top_dist l - 1 := by
  have hsel := copy_selected_pos l fb
  have hs' : (l.selected + 1) % l.size < l.size := Nat.mod_lt _ h0
  unfold log_top_dist at hd ⊢
  show (l.top + l.size - (undo_log_copy l fb 1).1.selected) % l.size = _
  rw [hsel, dist_closed l.top ((l.selected + 1) % l.size) l.size ht hs',
    mod_cases (l.selected + 1) l.size (by omega)]
  rw [dist_closed l.top l.selected l.size ht hs] at hd ⊢
  split_ifs at * <;> omega

theorem dist_prune {α : Type} (l : UndoLog α) (d : Nat) (h0 : 0 < l.size)
    (hs : l.selected < l.size) (hd : 1 < log_top_dist l) :
    log_top_dist (main_prune l d) = 1 := by
  have hdlt := dist_lt_size l h0
  have hS : 2 < l.size := by
    unfold log_top_dist at hd hdlt
    omega
  unfold log_top_dist at hd hdlt ⊢
  show ((l.selected + 1) % l.size + l.size - l.selected) % l.size = 1
  rw [mod_cases (l.selected + 1) l.size (by omega)]
  split_ifs with h
  · have e : l.selected + 1 + l.size - l.selected = l.size + 1 := by omega
    rw [e, Nat.add_mod_left]
    exact Nat.mod_eq_of_lt (by omega)
  · have e : l.selected + 1 - l.size + l.size - l.selected = 1 := by omega
    rw [e]
    exact Nat.mod_eq_of_lt (by omega)

theorem dist_push_le {α : Type} (l : UndoLog α) (fb : α) (h0 : 0 < l.size)
    (ht : l.top < l.size) :
    log_top_dist (undo_log_push l fb) ≤ 1 := by
  rcases Nat.lt_or_ge l.size 2 with h2 | h2
  · have hs1 : l.size = 1 := by omega
    show ((l.top + 1) % l.size + l.size - l.top) % l.size ≤ 1
    rw [hs1]
    omega
  · rw [dist_push l fb h2 ht]

/-! ## Preservation of the well-formedness invariant -/

theorem wf_push {α : Type} (l : UndoLog α) (fb : α) (h0 : 0 < l.size)
    (ht : l.top < l.size) (hu : l.used_size ≤ l.size) :
    WFlog (undo_log_push l fb) := by
  refine ⟨?_, ?_, ?_, ?_, ?_⟩
  · show (if l.used_size < l.size then l.used_size + 1 else l.used_size) ≤ l.size
    split_ifs <;> omega
  · show 1 ≤ (if l.used_size < l.size then l.used_size + 1 else l.used_size)
    split_ifs <;> omega
  · show (l.top + 1) % l.size < l.size
    exact Nat.mod_lt _ h0
  · show l.top < l.size
    exact ht
  · refine le_trans (dist_push_le l fb h0 ht) ?_
    show 1 ≤ (if l.used_size < l.size then l.used_size + 1 else l.used_size)
    split_ifs <;> omega

theorem wf_main_undo {α : Type} (l : UndoLog α) (fb : α) (hwf : WFlog l) :
    WFlog (main_undo l fb).1 := by
  obtain ⟨hu, h1, ht, hs, hd⟩ := hwf
  unfold main_undo
  split_ifs with hg
  · have h0 : 0 < l.size := by omega
    refine ⟨hu, h1, ht, ?_, ?_⟩
    · show (undo_log_copy l fb (-1)).1.selected < l.size
      rw [copy_selected_neg l fb]
      exact Nat.mod_lt _ h0
    · rcases Nat.lt_or_ge (log_top_dist l + 1) l.size with hlt | hge
      · rw [dist_copy_neg_nowrap l fb h0 ht hs hlt]
        show log_top_dist l + 1 ≤ l.used_size
        omega
      · have hW : log_top_dist l + 1 = l.size := by
          have := dist_lt_size l h0
          omega
        rw [dist_copy_neg_wrap l fb h0 ht hs hW]
        exact Nat.zero_le _
  · exact ⟨hu, h1, ht, hs, hd⟩

theorem wf_main_redo {α : Type} (l : UndoLog α) (fb : α) (hwf : WFlog l) :
    WFlog (main_redo l fb).1 := by
  obtain ⟨hu, h1, ht, hs, hd⟩ := hwf
  unfold main_redo
  split_ifs with hg
  · have h0 : 0 < l.size := by omega
    refine ⟨hu, h1, ht, ?_, ?_⟩
    · show (undo_log_copy l fb 1).1.selected < l.size
      rw [copy_selected_pos l fb]
      exact Nat.mod_lt _ h0
    · rw [dist_copy_pos l fb h0 ht hs hg]
      show log_top_dist l - 1 ≤ l.used_size
      omega
  · exact ⟨hu, h1, ht, hs, hd⟩

theorem wf_main_press_prune {α : Type} (l : UndoLog α) (hwf : WFlog l) :
    WFlog (main_press_prune l) := by
  obtain ⟨hu, h1, ht, hs, hd⟩ := hwf
  unfold main_press_prune
  split_ifs with hg
  · have h0 : 0 < l.size := by omega
    refine ⟨?_, ?_, ?_, ?_, ?_⟩
    · show l.used_size - (log_top_dist l - 1) ≤ l.size
      omega
    · show 1 ≤ l.used_size - (log_top_dist l - 1)
      omega
    · show (l.selected + 1) % l.size < l.size
      exact Nat.mod_lt _ h0
    · show l.selected < l.size
      exact hs
    · rw [dist_prune l (log_top_dist l) h0 hs hg]
      show 1 ≤ l.used_size - (log_top_dist l - 1)
      omega
  · exact ⟨hu, h1, ht, hs, hd⟩

theorem wf_startup {α : Type} (c : Nat) (blank : α) (h0 : 0 < c) :
    WFlog (clear_framebuffer (initLog α c) blank).1 :=
  wf_push (initLog α c) blank h0 h0 (Nat.zero_le _)

/-- Every log state reachable by the main loop's history operations is
well-formed. -/
theorem reachable_wf {α : Type} (c : Nat) (blank : α) (h0 : 0 < c) :
    ∀ l : UndoLog α, ReachableLog α c blank l → WFlog l := by
  intro l hr
  induction hr with
  | init => exact wf_startup c blank h0
  | push l2 fb hr2 ih =>
    obtain ⟨hu, h1, ht, hs, hd⟩ := ih
    exact wf_push l2 fb (by omega) ht hu
  | undo l2 fb hr2 ih => exact wf_main_undo l2 fb ih
  | redo l2 fb hr2 ih => exact wf_main_redo l2 fb ih
  | clear l2 hr2 ih =>
    obtain ⟨hu, h1, ht, hs, hd⟩ := ih
    exact wf_push l2 blank (by omega) ht hu
  | prune l2 hr2 ih => exact wf_main_press_prune l2 ih

/-! ## Claim C6: history distance invariant -/

/-- Claim C6: for every state reachable by any sequence of push, undo, redo,
clear and divergence-pruning operations from the initial state, the history
distance `dist = (write_cursor + capacity - selected_cursor) mod capacity`
satisfies `0 ≤ dist ≤ used_count`.  (`dist` is a `Nat`, so `0 ≤ dist` holds
by type; the substantive half `dist ≤ used_size` is proved by induction over
reachability.) -/
theorem c6_dist_invariant {α : Type} (c : Nat) (blank : α) (l : UndoLog α)
    (h0 : 0 < c) (hr : ReachableLog α c blank l) :
    log_top_dist l ≤ l.used_size :=
  (reachable_wf c blank h0 l hr).2.2.2.2

/-- Witness for C6: the invariant instantiated at the initial state with
capacity 4, both hypotheses discharged concretely. -/
theorem c6_dist_invariant_witness :
    0 < 4 ∧
      log_top_dist (clear_framebuffer (initLog Nat 4) 0).1 ≤
        (clear_framebuffer (initLog Nat 4) 0).1.used_size :=
  ⟨by decide, c6_dist_invariant 4 0 _ (by decide) ReachableLog.init⟩

/-! ## Claim C5: boundary guards are silent no-ops -/

/-- Claim C5: requesting undo when `dist = used_size` is a no-op and
requesting redo when `dist ≤ 1` is a no-op; in both cases the entire state
(store indices, counters and the live canvas) is returned unchanged, and no
error is raised — `main_undo` and `main_redo` are total functions with no
error outcome. -/
theorem c5_boundary_guards {α : Type} (l : UndoLog α) (fb : α) :
    (log_top_dist l = l.used_size → main_undo l fb = (l, fb)) ∧
    (log_top_dist l ≤ 1 → main_redo l fb = (l, fb)) := by
  constructor
  · intro h
    unfold main_undo
    rw [if_neg (by omega)]
  · intro h
    unfold main_redo
    rw [if_neg (by omega)]

/-- Witness for C5: at `exLogOldest` (`dist = used_size = 2`) undo is a
no-op; at `exLogNoRedo` (`dist = 1`) redo is a no-op. -/
theorem c5_boundary_guards_witness :
    (log_top_dist exLogOldest = exLogOldest.used_size ∧
      main_undo exLogOldest 0 = (exLogOldest, 0)) ∧
    (log_top_dist exLogNoRedo ≤ 1 ∧
      main_redo exLogNoRedo 0 = (exLogNoRedo, 0)) :=
  ⟨⟨by decide, (c5_boundary_guards exLogOldest 0).1 (by decide)⟩,
   ⟨by decide, (c5_boundary_guards exLogNoRedo 0).2 (by decide)⟩⟩

/-! ## Claim C2: divergence pruning on a stroke commit after undos -/

theorem main_undo_step {α : Type} (l : UndoLog α) (fb : α) (hwf : WFlog l)
    (hg : log_top_dist l < l.used_size) (hnw : log_top_dist l + 1 < l.size) :
    (main_undo l fb).1.top = l.top ∧
    (main_undo l fb).1.used_size = l.used_size ∧
    (main_undo l fb).1.size = l.size ∧
    log_top_dist (main_undo l fb).1 = log_top_dist l + 1 := by
  obtain ⟨hu, h1, ht, hs, hd⟩ := hwf
  have h0 : 0 < l.size := by omega
  unfold main_undo
  rw [if_pos hg]
  exact ⟨rfl, rfl, rfl, dist_copy_neg_nowrap l fb h0 ht hs hnw⟩

theorem main_undo_iter_spec {α : Type} (k : Nat) :
    ∀ (l : UndoLog α) (fb : α), WFlog l →
      log_top_dist l + k ≤ l.used_size → l.used_size < l.size →
      WFlog (main_undo_iter k (l, fb)).1 ∧
      (main_undo_iter k (l, fb)).1.top = l.top ∧
      (main_undo_iter k (l, fb)).1.used_size = l.used_size ∧
      (main_undo_iter k (l, fb)).1.size = l.size ∧
      log_top_dist (main_undo_iter k (l, fb)).1 = log_top_dist l + k := by
  induction k with
  | zero =>
    intro l fb hwf _ _
    exact ⟨hwf, rfl, rfl, rfl, (Nat.add_zero _).symm⟩
  | succ k ih =>
    intro l fb hwf hk hcap
    obtain ⟨hu, h1, ht, hs, hd⟩ := hwf
    have hg : log_top_dist l < l.used_size := by omega
    have hnw : log_top_dist l + 1 < l.size := by omega
    obtain ⟨htop, huse, hsize, hdist⟩ :=
      main_undo_step l fb ⟨hu, h1, ht, hs, hd⟩ hg hnw
    have hwfstep : WFlog (main_undo l fb).1 :=
      wf_main_undo l fb ⟨hu, h1, ht, hs, hd⟩
    have hrec := ih (main_undo l fb).1 (main_undo l fb).2 hwfstep
      (by rw [hdist, huse]; omega) (by rw [huse, hsize]; exact hcap)
    obtain ⟨hwfr, htopr, huser, hsizer, hdistr⟩ := hrec
    refine ⟨hwfr, htopr.trans htop, huser.trans huse, hsizer.trans hsize, ?_⟩
    show log_top_dist (main_undo_iter k (main_undo l fb)).1
        = log_top_dist l + (k + 1)
    rw [hdistr, hdist]
    omega

/-- Claim C2: from a well-formed history at the tip (`dist = 1`) that has
not yet hit capacity, undoing `k` steps (`0 < k < used_size`) and then
committing a new drawing stroke — left-button press, which prunes, followed
by left-button release, which pushes — leaves `used_size = old used_size -
k + 1`, puts the history back at the tip (`dist = 1`), and makes redo
unavailable (an immediate redo request is a no-op). -/
theorem c2_divergence_pruning {α : Type} (l : UndoLog α) (fb fbp : α)
    (k : Nat) (hwf : WFlog l) (htip : log_top_dist l = 1) (hk0 : 0 < k)
    (hk : k < l.used_size) (hcap : l.used_size < l.size) :
    (undo_log_push (main_press_prune (main_undo_iter k (l, fb)).1) fbp).used_size
        = l.used_size - k + 1 ∧
    log_top_dist
        (undo_log_push (main_press_prune (main_undo_iter k (l, fb)).1) fbp) = 1 ∧
    main_redo
        (undo_log_push (main_press_prune (main_undo_iter k (l, fb)).1) fbp) fbp
      = (undo_log_push (main_press_prune (main_undo_iter k (l, fb)).1) fbp, fbp) := by
  obtain ⟨hwfu, htopu, huseu, hsizeu, hdistu⟩ :=
    main_undo_iter_spec k l fb hwf (by omega) hcap
  have hgp : 1 < log_top_dist (main_undo_iter k (l, fb)).1 := by
    rw [hdistu, htip]
    omega
  obtain ⟨huu, h1u, htu, hsu, hdu2⟩ := hwfu
  have h0u : 0 < (main_undo_iter k (l, fb)).1.size := by omega
  obtain ⟨hup, h1p, htp, hsp, hdp⟩ :=
    wf_main_press_prune (main_undo_iter k (l, fb)).1 ⟨huu, h1u, htu, hsu, hdu2⟩
  have hpu : (main_press_prune (main_undo_iter k (l, fb)).1).used_size
      = (main_undo_iter k (l, fb)).1.used_size
        - (log_top_dist (main_undo_iter k (l, fb)).1 - 1) := by
    unfold main_press_prune
    rw [if_pos hgp]
    rfl
  have hpsize : (main_press_prune (main_undo_iter k (l, fb)).1).size = l.size := by
    unfold main_press_prune
    rw [if_pos hgp]
    exact hsizeu
  have h2 : 2 ≤ (main_press_prune (main_undo_iter k (l, fb)).1).size := by
    rw [hpsize]
    omega
  have hd2 := dist_push (main_press_prune (main_undo_iter k (l, fb)).1) fbp h2 htp
  refine ⟨?_, hd2, ?_⟩
  · rw [push_used, hpu, hdistu, htip, huseu, hpsize]
    rw [if_pos (by omega)]
    omega
  · unfold main_redo
    rw [if_neg (by omega)]

/-- Witness for C2: `exLogAtTip` (capacity 4, three snapshots, at the tip),
undo one step, then commit a stroke: `used_size` becomes `3 - 1 + 1 = 3`,
the history is back at the tip and redo is a no-op. -/
theorem c2_divergence_pruning_witness :
    (WFlog exLogAtTip ∧ log_top_dist exLogAtTip = 1 ∧ 0 < 1 ∧
      1 < exLogAtTip.used_size ∧ exLogAtTip.used_size < exLogAtTip.size) ∧
    ((undo_log_push (main_press_prune (main_undo_iter 1 (exLogAtTip, 0)).1) 99).used_size
        = exLogAtTip.used_size - 1 + 1 ∧
      log_top_dist
        (undo_log_push (main_press_prune (main_undo_iter 1 (exLogAtTip, 0)).1) 99) = 1 ∧
      main_redo
        (undo_log_push (main_press_prune (main_undo_iter 1 (exLogAtTip, 0)).1) 99) 99
        = (undo_log_push (main_press_prune (main_undo_iter 1 (exLogAtTip, 0)).1) 99, 99)) :=
  ⟨⟨by decide, by decide, by decide, by decide, by decide⟩,
    c2_divergence_pruning exLogAtTip 0 99 1 (by decide) (by decide) (by decide)
      (by decide) (by decide)⟩

/-! ## Claim C4: undo/redo round-trip -/

/-- Claim C4: for every canvas state `A` and `B`, pushing `A` then `B` onto a
well-formed store (capacity at least 3, as in the default configuration of
16) and issuing the main loop's undo makes the live canvas equal to `A`
bit-for-bit, and the subsequent redo makes it equal to `B`. -/
theorem c4_round_trip {α : Type} (l : UndoLog α) (A B : α)
    (ht : l.top < l.size) (hu : l.used_size ≤ l.size) (h3 : 3 ≤ l.size) :
    (main_undo (undo_log_push (undo_log_push l A) B) B).2 = A ∧
    (main_redo (main_undo (undo_log_push (undo_log_push l A) B) B).1
      (main_undo (undo_log_push (undo_log_push l A) B) B).2).2 = B := by
  have h0 : 0 < l.size := by omega
  set l1 := undo_log_push l A with hl1
  set l2 := undo_log_push l1 B with hl2
  have hsize1 : l1.size = l.size := rfl
  have hsize2 : l2.size = l.size := rfl
  have htop1 : l1.top = (l.top + 1) % l.size := rfl
  have hsel2 : l2.selected = (l.top + 1) % l.size := rfl
  have htop1lt : l1.top < l.size := by
    rw [htop1]
    exact Nat.mod_lt _ h0
  have hne : (l.top + 1) % l.size ≠ l.top := by
    rw [mod_cases (l.top + 1) l.size (by omega)]
    split_ifs <;> omega
  have hused1 : 1 ≤ l1.used_size ∧ l1.used_size ≤ l.size := by
    constructor
    · show 1 ≤ (if l.used_size < l.size then l.used_size + 1 else l.used_size)
      split_ifs <;> omega
    · show (if l.used_size < l.size then l.used_size + 1 else l.used_size) ≤ l.size
      split_ifs <;> omega
  have hused2 : 2 ≤ l2.used_size := by
    show 2 ≤ (if l1.used_size < l1.size then l1.used_size + 1 else l1.used_size)
    have h1a := hused1.1
    have h1b := hused1.2
    split_ifs with hh <;> omega
  have hdist2 : log_top_dist l2 = 1 := dist_push l1 B (by omega) htop1lt
  have hg : log_top_dist l2 < l2.used_size := by omega
  have hundo : main_undo l2 B = undo_log_copy l2 B (-1) := by
    unfold main_undo
    rw [if_pos hg]
  have hselu : (undo_log_copy l2 B (-1)).1.selected = l.top := by
    rw [copy_selected_neg, hsel2, hsize2]
    rw [mod_cases (l.top + 1) l.size (by omega)]
    split_ifs with h
    · rw [mod_cases (l.top + 1 + l.size - 1) l.size (by omega)]
      split_ifs <;> omega
    · rw [mod_cases (l.top + 1 - l.size + l.size - 1) l.size (by omega)]
      split_ifs <;> omega
  have himg2A : l2.images l.top = some A := by
    show set_slot (set_slot l.images l.top (some A)) ((l.top + 1) % l.size)
        (some B) l.top = some A
    have hne2 : ¬ l.top = (l.top + 1) % l.size := fun hh => hne hh.symm
    simp [set_slot, hne2]
  have himg2B : l2.images ((l.top + 1) % l.size) = some B := by
    show set_slot (set_slot l.images l.top (some A)) ((l.top + 1) % l.size)
        (some B) ((l.top + 1) % l.size) = some B
    simp [set_slot]
  have htl2 : l2.top < l2.size := by
    show (l1.top + 1) % l1.size < l.size
    have : (0 : Nat) < l1.size := by omega
    exact Nat.mod_lt _ this
  have hsl2 : l2.selected < l2.size := by
    rw [hsel2, hsize2]
    exact Nat.mod_lt _ h0
  have h0l2 : 0 < l2.size := by omega
  have hdistu : log_top_dist (undo_log_copy l2 B (-1)).1 = 2 := by
    rw [dist_copy_neg_nowrap l2 B h0l2 htl2 hsl2 (by omega), hdist2]
  constructor
  · rw [hundo, copy_fb, hselu, himg2A]
    rfl
  · rw [hundo]
    have hredo : main_redo (undo_log_copy l2 B (-1)).1 (undo_log_copy l2 B (-1)).2
        = undo_log_copy (undo_log_copy l2 B (-1)).1 (undo_log_copy l2 B (-1)).2 1 := by
      unfold main_redo
      rw [if_pos (by omega)]
    rw [hredo, copy_fb, copy_images]
    have hszu : (undo_log_copy l2 B (-1)).1.size = l.size := rfl
    have hselr : (undo_log_copy (undo_log_copy l2 B (-1)).1
        (undo_log_copy l2 B (-1)).2 1).1.selected = (l.top + 1) % l.size := by
      rw [copy_selected_pos, hselu, hszu]
    rw [hselr, himg2B]
    rfl

/-- Witness for C4 at the concrete store `exLogSmall` with `A = 41`,
`B = 42`. -/
theorem c4_round_trip_witness :
    (exLogSmall.top < exLogSmall.size ∧ exLogSmall.used_size ≤ exLogSmall.size ∧
      3 ≤ exLogSmall.size) ∧
    ((main_undo (undo_log_push (undo_log_push exLogSmall 41) 42) 42).2 = 41 ∧
      (main_redo (main_undo (undo_log_push (undo_log_push exLogSmall 41) 42) 42).1
        (main_undo (undo_log_push (undo_log_push exLogSmall 41) 42) 42).2).2 = 42) :=
  ⟨⟨by decide, by decide, by decide⟩,
    c4_round_trip exLogSmall 41 42 (by decide) (by decide) (by decide)⟩

/-! ## Claim C1: what Clear actually does while browsing history -/

/-- Counterexample to claim C1.  `exC1AfterUndos` is a history state with
`dist = 3 > 1` and `used_size = 3` (snapshots blank, 1, 2; the user is
viewing the blank one).  The claim says Clear first prunes every snapshot
strictly between `selected` and `top` — which would leave `used_size = 3 -
(3 - 1) + 1 = 2` — and that afterwards no orphaned future entry is reachable
by undo.  In the code the `KEY_C` branch (beak.c line 236-238) runs before
the pruning branch (lines 259-270) and pruning only fires on a left-button
press, so Clear pushes without pruning: `used_size` becomes 4, and a single
undo materializes snapshot `2` — the tip of the abandoned future. -/
theorem c1_counterexample :
    1 < log_top_dist exC1AfterUndos ∧
    exC1AfterUndos.used_size = 3 ∧
    exC1AfterClear.used_size = 4 ∧
    (main_undo exC1AfterClear 0).2 = 2 := by
  decide

/-- Claim C1 (amended): for every well-formed history state with
`dist > 1`, the Clear action pushes the blank snapshot WITHOUT the
divergence pruning of a drawing push: `used_size` grows by one (unless at
capacity) instead of shrinking, no slot other than `write_cursor` is touched
or freed, the push lands the history at the tip (`dist = 1`), and the very
next undo materializes the snapshot at `write_cursor - 1` — the tip of the
abandoned future branch, which therefore remains reachable. -/
theorem c1_amended {α : Type} (l : UndoLog α) (blank : α)
    (hwf : WFlog l) (hd : 1 < log_top_dist l) :
    (clear_framebuffer l blank).1.used_size
        = (if l.used_size < l.size then l.used_size + 1 else l.used_size) ∧
    (∀ i, i ≠ l.top → (clear_framebuffer l blank).1.images i = l.images i) ∧
    log_top_dist (clear_framebuffer l blank).1 = 1 ∧
    (main_undo (clear_framebuffer l blank).1 blank).2
        = (l.images ((l.top + l.size - 1) % l.size)).getD blank := by
  obtain ⟨hu, h1, ht, hs, hdu⟩ := hwf
  have h0 : 0 < l.size := by omega
  have hS3 : 2 < l.size := by
    have := dist_lt_size l h0
    omega
  refine ⟨rfl, ?_, ?_, ?_⟩
  · intro i hi
    show set_slot l.images l.top (some blank) i = l.images i
    simp [set_slot, hi]
  · exact dist_push l blank (by omega) ht
  · have hdc : log_top_dist (clear_framebuffer l blank).1 = 1 :=
      dist_push l blank (by omega) ht
    have hucge : 2 ≤ (clear_framebuffer l blank).1.used_size := by
      show 2 ≤ (if l.used_size < l.size then l.used_size + 1 else l.used_size)
      split_ifs <;> omega
    have hg : log_top_dist (clear_framebuffer l blank).1
        < (clear_framebuffer l blank).1.used_size := by omega
    have hun : main_undo (clear_framebuffer l blank).1 blank
        = undo_log_copy (clear_framebuffer l blank).1 blank (-1) := by
      unfold main_undo
      rw [if_pos hg]
    have hselc : (undo_log_copy (clear_framebuffer l blank).1 blank (-1)).1.selected
        = (l.top + l.size - 1) % l.size := by
      rw [copy_selected_neg]
      rfl
    have hne : (l.top + l.size - 1) % l.size ≠ l.top := by
      rw [mod_cases (l.top + l.size - 1) l.size (by omega)]
      split_ifs <;> omega
    rw [hun, copy_fb, hselc]
    show (set_slot l.images l.top (some blank)
        ((l.top + l.size - 1) % l.size)).getD blank = _
    simp [set_slot, hne]

/-- Witness for the amended C1 at `exLogBrowsing` (capacity 4, three
snapshots, viewing the oldest, `dist = 3`). -/
theorem c1_amended_witness :
    (WFlog exLogBrowsing ∧ 1 < log_top_dist exLogBrowsing) ∧
    ((clear_framebuffer exLogBrowsing 99).1.used_size
        = (if exLogBrowsing.used_size < exLogBrowsing.size
            then exLogBrowsing.used_size + 1 else exLogBrowsing.used_size) ∧
      (∀ i, i ≠ exLogBrowsing.top →
        (clear_framebuffer exLogBrowsing 99).1.images i = exLogBrowsing.images i) ∧
      log_top_dist (clear_framebuffer exLogBrowsing 99).1 = 1 ∧
      (main_undo (clear_framebuffer exLogBrowsing 99).1 99).2
        = (exLogBrowsing.images
            ((exLogBrowsing.top + exLogBrowsing.size - 1) % exLogBrowsing.size)).getD 99) :=
  ⟨⟨by decide, by decide⟩, c1_amended exLogBrowsing 99 (by decide) (by decide)⟩

/-! ## Claim C3: ring capacity and oldest-entry eviction -/

theorem push_seq_append {α : Type} (l : UndoLog α) (xs : List α) (x : α) :
    push_seq l (xs ++ [x]) = undo_log_push (push_seq l xs) x := by
  induction xs generalizing l with
  | nil => rfl
  | cons y ys ih =>
    show push_seq (undo_log_push l y) (ys ++ [x]) = _
    exact ih (undo_log_push l y)

/-- Characterization of the store after pushing the list `xs` into a fresh
log of capacity `c`: the write cursor is `xs.length % c`, exactly
`min xs.length c` slots are used, and slot `k % c` holds the `k`-th pushed
content for each of the last `c` pushes. -/
theorem push_seq_spec {α : Type} (c : Nat) (xs : List α) :
    (push_seq (initLog α c) xs).size = c ∧
    (push_seq (initLog α c) xs).top = xs.length % c ∧
    (push_seq (initLog α c) xs).used_size = min xs.length c ∧
    ∀ k, k < xs.length → xs.length ≤ k + c →
      (push_seq (initLog α c) xs).images (k % c) = xs[k]? := by
  induction xs using List.reverseRecOn with
  | nil =>
    refine ⟨rfl, (Nat.zero_mod c).symm, by simp [push_seq, initLog], ?_⟩
    intro k hk _
    exact absurd hk (by simp)
  | append_singleton ys x ih =>
    obtain ⟨hsz, htp, hus, him⟩ := ih
    rw [push_seq_append]
    refine ⟨?_, ?_, ?_, ?_⟩
    · rw [push_size, hsz]
    · rw [push_top, htp, hsz, Nat.mod_add_mod]
      simp
    · rw [push_used, hus, hsz]
      simp only [List.length_append, List.length_cons, List.length_nil]
      split_ifs <;> omega
    · intro k hk hkc
      simp only [List.length_append, List.length_cons, List.length_nil] at hk hkc
      rw [push_images, htp]
      rcases Nat.lt_or_ge k ys.length with hlt | hge
      · have hneq : k % c ≠ ys.length % c := by
          intro he
          have hdvd : c ∣ ys.length - k :=
            (Nat.modEq_iff_dvd' (Nat.le_of_lt hlt)).mp he
          have := Nat.le_of_dvd (by omega) hdvd
          omega
        simp only [set_slot]
        rw [if_neg hneq, him k hlt (by omega)]
        exact (List.getElem?_append_left hlt).symm
      · have hk2 : k = ys.length := by omega
        subst hk2
        simp only [set_slot, if_true]
        exact (List.getElem?_concat_length ys x).symm

/-- Claim C3: for every sequence of pushes into a store of capacity
`c > 0`, `used_size` never exceeds `c`; and once the store is full, the
snapshot released by the next push (`undo_log_push_released`, the content
`UnloadImage`d before slot `top` is reused) is, by content, the oldest
stored snapshot — the one pushed exactly `c` pushes ago, i.e.
`xs.get? (xs.length - c)`; every older push has already been evicted. -/
theorem c3_ring_capacity {α : Type} (c : Nat) (xs : List α) (h0 : 0 < c) :
    (push_seq (initLog α c) xs).used_size ≤ c ∧
    (c ≤ xs.length →
      undo_log_push_released (push_seq (initLog α c) xs)
        = xs[xs.length - c]?) := by
  obtain ⟨hsz, htp, hus, him⟩ := push_seq_spec c xs
  constructor
  · rw [hus]
    omega
  · intro hc
    unfold undo_log_push_released
    have hfull : (push_seq (initLog α c) xs).used_size
        = (push_seq (initLog α c) xs).size := by
      rw [hus, hsz]
      omega
    rw [if_pos hfull, htp, Nat.mod_eq_sub_mod hc]
    exact him (xs.length - c) (by omega) (by omega)

/-- Witness for C3: capacity 2 with pushes 10, 20, 30 — `used_size` is
capped at 2 and the next push would release snapshot 20, the oldest of the
two still stored (10 was already evicted by the push of 30). -/
theorem c3_ring_capacity_witness :
    ((push_seq (initLog Nat 2) [10, 20, 30]).used_size ≤ 2) ∧
    (2 ≤ ([10, 20, 30] : List Nat).length) ∧
    (undo_log_push_released (push_seq (initLog Nat 2) [10, 20, 30])
      = ([10, 20, 30] : List Nat)[([10, 20, 30] : List Nat).length - 2]?) :=
  ⟨(c3_ring_capacity 2 [10, 20, 30] (by decide)).1, by decide,
    (c3_ring_capacity 2 [10, 20, 30] (by decide)).2 (by decide)⟩

/-! ## Claim C7: viewport clamp on pan and resize -/

/-- Counterexample to claim C7's resize part.  With window 3000x2000 (larger
than the 2560x1440 canvas on both axes) the claim says the target is clamped
to `canvas_dim / 2` — 1280 for x and 720 for y.  The code computes
`CLAMP(w/2, t, MAX(0, canvas - w/2))` whose outer `MIN` returns the upper
bound `canvas - w/2` whenever `upper < lower`, so the targets are forced to
1060 and 440; even the claimed fixed points 1280 and 720 are moved. -/
theorem c7_counterexample :
    clamp_target_axis 3000 2560 1280 = 1060 ∧ (1060 : Int) ≠ 2560 / 2 ∧
    clamp_target_axis 2000 1440 720 = 440 ∧ (440 : Int) ≠ 1440 / 2 := by
  decide

/-- Claim C7 (amended): for canvas 2560x1440 and window 800x600, the pan
clamp maps any target `t` to `min(upper, max(lower, t))` with the claimed
ranges — x into [400, 2160] and y into [300, 1140].  After a resize to
window 3000x2000 (window larger than the canvas on an axis), that axis's
target is forced to the constant `max(0, canvas_dim - win_dim/2)` — 1060
for x and 440 for y — not `canvas_dim / 2` as the claim states. -/
theorem c7_amended (t : Int) :
    clamp_target_axis 800 2560 t = min 2160 (max 400 t) ∧
    (400 ≤ clamp_target_axis 800 2560 t ∧ clamp_target_axis 800 2560 t ≤ 2160) ∧
    clamp_target_axis 600 1440 t = min 1140 (max 300 t) ∧
    (300 ≤ clamp_target_axis 600 1440 t ∧ clamp_target_axis 600 1440 t ≤ 1140) ∧
    clamp_target_axis 3000 2560 t = 1060 ∧
    clamp_target_axis 2000 1440 t = 440 := by
  unfold clamp_target_axis CLAMPi MINi MAXi
  norm_num
  simp only [min_def, max_def]
  split_ifs <;> omega

/-! ## Claim C8: behaviour at capacity zero; totality for capacity > 0 -/

/-- Counterexample to claim C8.  With `--undo-log-size 0` the program does
not fail before the first push: startup reaches the initial
`clear_framebuffer`'s push, whose `assert(used_size <= size)` holds
(`0 ≤ 0`), and the failure happens inside the push — the out-of-bounds
`UnloadImage(images[top])` on the zero-length array (undefined behaviour),
not a checked precondition violation before the push runs. -/
theorem c8_counterexample :
    (initLog Nat 0).used_size ≤ (initLog Nat 0).size ∧
    startup_push_failure Nat 0 0 = some PushFailure.oobUnload ∧
    PushFailure.oobUnload ≠ PushFailure.assertViolation := by
  decide

/-- Claim C8 (amended): the program performs no capacity validation at
startup; with capacity 0 the startup push is entered and fails inside
`undo_log_push` (out-of-bounds unload, undefined behaviour), its `assert`
passing.  Given capacity > 0 and in-range counters, `push` and
`materialize` (copy) never fail. -/
theorem c8_amended {α : Type} (l : UndoLog α) (fb bg : α) (off : Int)
    (h0 : 0 < l.size) (hu : l.used_size ≤ l.size) (ht : l.top < l.size) :
    undo_log_push_checked l fb = .ok (undo_log_push l fb) ∧
    undo_log_copy_checked l fb off = .ok (undo_log_copy l fb off) ∧
    startup_push_checked α 0 bg = .error .oobUnload := by
  refine ⟨?_, ?_, ?_⟩
  · unfold undo_log_push_checked
    rw [if_neg (by omega), if_neg (by omega), if_neg (by omega)]
  · unfold undo_log_copy_checked
    rw [if_neg (by omega)]
  · rfl

/-- Witness for the amended C8 at the concrete log `exLogChecked`
(capacity 2, one snapshot). -/
theorem c8_amended_witness :
    (0 < exLogChecked.size ∧ exLogChecked.used_size ≤ exLogChecked.size ∧
      exLogChecked.top < exLogChecked.size) ∧
    (undo_log_push_checked exLogChecked 1 = .ok (undo_log_push exLogChecked 1) ∧
      undo_log_copy_checked exLogChecked 1 (-1)
        = .ok (undo_log_copy exLogChecked 1 (-1)) ∧
      startup_push_checked Nat 0 2 = .error .oobUnload) :=
  ⟨⟨by decide, by decide, by decide⟩,
    c8_amended exLogChecked 1 2 (-1) (by decide) (by decide) (by decide)⟩

/-! ## Claim C9: rejection of invalid numeric option values -/

/-- Counterexample to claim C9.  The value `abc` is not a valid number
(after whitespace/sign stripping it is not a nonempty digit run), yet
`strtoul("abc", NULL, 10)` performs no conversion and returns 0, which the
check at beak.c line 179 (`== ULONG_MAX`) does not catch: the option is
accepted as 0 and startup proceeds — no diagnostic, no non-zero exit. -/
theorem c9_counterexample :
    spec_valid_number ['a', 'b', 'c'] = false ∧
    parse_ulong_option ['a', 'b', 'c'] = Except.ok 0 := by
  refine ⟨by decide, ?_⟩
  rfl

/-- Claim C9 (amended): a numeric option value is rejected (diagnostic and
non-zero exit) exactly when `strtoul` returns `ULONG_MAX`.  In particular a
value with no leading digit run — e.g. any non-numeric string — silently
parses as 0 and is accepted, and a value whose digit run exceeds
`ULONG_MAX` is rejected. -/
theorem c9_amended (s : List Char) :
    (leading_non_digit (take_sign (skip_spaces s)).2 = true →
      parse_ulong_option s = Except.ok 0) ∧
    (ULONG_MAX < digits_value (take_sign (skip_spaces s)).2 0 →
      parse_ulong_option s = Except.error ()) := by
  constructor
  · intro h
    have hv : digits_value (take_sign (skip_spaces s)).2 0 = 0 := by
      cases hcase : (take_sign (skip_spaces s)).2 with
      | nil => rfl
      | cons ch rest =>
        rw [hcase] at h
        simp only [leading_non_digit, Bool.not_eq_true'] at h
        simp [digits_value, h]
    have hs : strtoul10 s = 0 := by
      show (if ULONG_MAX < digits_value (take_sign (skip_spaces s)).2 0
          then ULONG_MAX
          else if (take_sign (skip_spaces s)).1 = true
            then (2 ^ 64 - digits_value (take_sign (skip_spaces s)).2 0) % 2 ^ 64
            else digits_value (take_sign (skip_spaces s)).2 0) = 0
      rw [hv, if_neg (by omega)]
      split_ifs <;> simp
    show (if strtoul10 s = ULONG_MAX then Except.error ()
        else Except.ok (strtoul10 s)) = Except.ok 0
    rw [hs, if_neg (by decide)]
  · intro h
    have hs : strtoul10 s = ULONG_MAX := by
      show (if ULONG_MAX < digits_value (take_sign (skip_spaces s)).2 0
          then ULONG_MAX
          else if (take_sign (skip_spaces s)).1 = true
            then (2 ^ 64 - digits_value (take_sign (skip_spaces s)).2 0) % 2 ^ 64
            else digits_value (take_sign (skip_spaces s)).2 0) = ULONG_MAX
      rw [if_pos h]
    show (if strtoul10 s = ULONG_MAX then Except.error ()
        else Except.ok (strtoul10 s)) = Except.error ()
    rw [hs, if_pos rfl]

/-- Witness for the amended C9: `x` is accepted as 0; a run of twenty nines
overflows `unsigned long` and is rejected. -/
theorem c9_amended_witness :
    (leading_non_digit (take_sign (skip_spaces ['x'])).2 = true ∧
      parse_ulong_option ['x'] = Except.ok 0) ∧
    (ULONG_MAX < digits_value (take_sign (skip_spaces
        ['9', '9', '9', '9', '9', '9', '9', '9', '9', '9',
         '9', '9', '9', '9', '9', '9', '9', '9', '9', '9'])).2 0 ∧
      parse_ulong_option
        ['9', '9', '9', '9', '9', '9', '9', '9', '9', '9',
         '9', '9', '9', '9', '9', '9', '9', '9', '9', '9'] = Except.error ()) :=
  ⟨⟨by decide, (c9_amended ['x']).1 (by decide)⟩,
   ⟨by decide,
    (c9_amended
      ['9', '9', '9', '9', '9', '9', '9', '9', '9', '9',
       '9', '9', '9', '9', '9', '9', '9', '9', '9', '9']).2 (by decide)⟩⟩

/-! ## Claim C10: erase-only frames never touch the undo log -/

/-- Claim C10: a snapshot is pushed only on release of the left (draw)
button.  In any frame without a `KEY_C`, without a left-button press or
release and without an undo/redo request — in particular every frame in
which only the right (erase) button is pressed, held or released — the undo
log (`images`, `used_size`, `top`, `selected`) is unchanged; yet when the
right button is held the frame appends an erase stroke (three capsule
commands drawn in the background color) to the live canvas, mutating it.
An erase-only stroke is therefore never individually undoable. -/
theorem c10_erase_only_frame (cfg : Config) (s : AppState) (inp : FrameInput)
    (hc : inp.key_c = false) (hp : inp.left_pressed = false)
    (hrl : inp.left_released = false) (hq : inp.key_undo = false)
    (hw : inp.key_redo = false) (hld : inp.left_down = false) :
    (frame_step cfg s inp).log = s.log ∧
    (inp.right_down = true →
      (∃ stroke : List PaintCmd, stroke.length = 3 ∧
        (∀ cmd ∈ stroke, paint_cmd_color cmd = cfg.background) ∧
        (frame_step cfg s inp).framebuffer = s.framebuffer ++ stroke) ∧
      (frame_step cfg s inp).framebuffer ≠ s.framebuffer) := by
  constructor
  · simp [frame_step, hc, hp, hrl, hq, hw]
  · intro hrd
    constructor
    · simp only [frame_step, hc, hp, hrl, hq, hw, hld, hrd]
      simp only [Bool.false_eq_true, and_false, false_and, if_false,
        false_or, if_true, ite_false, ite_true]
      refine ⟨_, ?_, ?_, rfl⟩
      · rfl
      · simp [paint_cmd_color]
    · intro hEq
      simp only [frame_step, hc, hp, hrl, hq, hw, hld, hrd] at hEq
      simp only [Bool.false_eq_true, and_false, false_and, if_false,
        false_or, if_true, ite_false, ite_true] at hEq
      have hlen := congrArg List.length hEq
      simp at hlen

/-- Witness for C10 at the startup state with an erase-only input frame. -/
theorem c10_erase_only_frame_witness :
    (exEraseInput.key_c = false ∧ exEraseInput.left_pressed = false ∧
      exEraseInput.left_released = false ∧ exEraseInput.key_undo = false ∧
      exEraseInput.key_redo = false ∧ exEraseInput.left_down = false ∧
      exEraseInput.right_down = true) ∧
    (frame_step exConfig exAppState exEraseInput).log = exAppState.log ∧
    (∃ stroke : List PaintCmd, stroke.length = 3 ∧
      (∀ cmd ∈ stroke, paint_cmd_color cmd = exConfig.background) ∧
      (frame_step exConfig exAppState exEraseInput).framebuffer
        = exAppState.framebuffer ++ stroke) ∧
    (frame_step exConfig exAppState exEraseInput).framebuffer
      ≠ exAppState.framebuffer :=
  ⟨⟨rfl, rfl, rfl, rfl, rfl, rfl, rfl⟩,
    (c10_erase_only_frame exConfig exAppState exEraseInput
      rfl rfl rfl rfl rfl rfl).1,
    ((c10_erase_only_frame exConfig exAppState exEraseInput
      rfl rfl rfl rfl rfl rfl).2 rfl).1,
    ((c10_erase_only_frame exConfig exAppState exEraseInput
      rfl rfl rfl rfl rfl rfl).2 rfl).2⟩

end Beak
